import Mathlib

/-!
Shallow embedding of the portfolio/project-sharing backend: the User, Project
and Comment documents, the mutation routes on them (create/update/delete
comment, like toggle, project update/delete, profile update) and the
counter/reply-tree maintenance rules they implement.  Documents are Lean
structures, the database is explicit state (three lists of documents), and
each Express route handler becomes a pure function from the database and the
request data to a response together with the new database.  Mongo ObjectIds
are modelled as natural numbers; `findById` is `List.find?` on the id field;
`findByIdAndUpdate` maps a guarded update over the collection; `deleteMany`
is a filter.
-/

namespace Pacto

/-- User document (userSchema in the models file). -/
structure User where
  id : Nat
  username : String
  email : String
  password : String
  avatar : String
  bio : String
  githubProfile : String
  portfolio : String
deriving DecidableEq

/-- Project document (projectSchema).  `likesCount` and `commentsCount` are the
denormalized counters; `commentsCount` is an `Int` because the route code
adjusts it with signed `$inc` updates. -/
structure Project where
  id : Nat
  title : String
  description : String
  image : String
  githubUrl : String
  liveUrl : Option String
  tags : List String
  author : Nat
  likes : List Nat
  likesCount : Nat
  commentsCount : Int
deriving DecidableEq

/-- Comment document (commentSchema): optional parent reference (`none` means
top-level), reply-reference list, liker list and derived `likesCount`. -/
structure Comment where
  id : Nat
  content : String
  author : Nat
  project : Nat
  parentComment : Option Nat
  replies : List Nat
  likes : List Nat
  likesCount : Nat
deriving DecidableEq

/-- The persistence layer: three document collections. -/
structure DB where
  users : List User
  projects : List Project
  comments : List Comment
deriving DecidableEq

/-- The error taxonomy the routes surface.  In the source, `notFound` is a 404
response, `unauthorized` a 403 "Not authorized" response, and `conflict` is
the duplicate-username response (surfaced as status 400 with message
"Username already taken"). -/
inductive ApiError where
  | notFound (msg : String)
  | unauthorized (msg : String)
  | conflict (msg : String)
deriving DecidableEq

/-- The HTTP status the source attaches to each error. -/
def ApiError.status : ApiError → Nat
  | .notFound _ => 404
  | .unauthorized _ => 403
  | .conflict _ => 400

/-- Shape of a like/unlike response body. -/
structure LikeResp where
  liked : Bool
  likesCount : Nat
deriving DecidableEq

/-- Express `User.findById`. -/
def findUser (db : DB) (i : Nat) : Option User :=
  db.users.find? (fun u => u.id == i)

/-- Express `Project.findById`. -/
def findProject (db : DB) (i : Nat) : Option Project :=
  db.projects.find? (fun p => p.id == i)

/-- Express `Comment.findById`. -/
def findComment (db : DB) (i : Nat) : Option Comment :=
  db.comments.find? (fun c => c.id == i)

/-- The `findByIdAndUpdate` write on the project collection: rewrite the document(s)
whose id matches. -/
def modifyProject (l : List Project) (i : Nat) (f : Project → Project) : List Project :=
  l.map (fun p => if p.id == i then f p else p)

/-- The `findByIdAndUpdate` write on the comment collection. -/
def modifyComment (l : List Comment) (i : Nat) (f : Comment → Comment) : List Comment :=
  l.map (fun c => if c.id == i then f c else c)

/-- The `findByIdAndUpdate` write on the user collection. -/
def modifyUser (l : List User) (i : Nat) (f : User → User) : List User :=
  l.map (fun u => if u.id == i then f u else u)

/-- The `projectSchema.pre('save')` hook: `likesCount = likes.length`. -/
def projectSave (p : Project) : Project :=
  { p with likesCount := p.likes.length }

/-- Modelled from the spec: the Comment model file itself is not in the
source tree (only its routes are).  Spec section 3 states a Comment's
`likesCount` is "derived from liker-set size", the same rule the Project
model enforces in its pre-save hook, and the comment like route reads
`comment.likesCount` right after `save`, so saving a comment recomputes the
counter from the liker list. -/
def commentSave (c : Comment) : Comment :=
  { c with likesCount := c.likes.length }

/-- The document built by `new Comment({...})` in the create-comment route,
then saved (empty replies and likes, parent as supplied or null). -/
def newCommentDoc (caller : Nat) (content : String) (projectId : Nat)
    (parentCommentId : Option Nat) (newId : Nat) : Comment :=
  commentSave
    { id := newId, content := content, author := caller, project := projectId,
      parentComment := parentCommentId, replies := [], likes := [], likesCount := 0 }

/-- The write sequence of the create-comment route after its existence checks:
save the new comment, `$push` its id onto the parent's `replies` if it is a
reply, then `$inc` the project's `commentsCount` by 1. -/
def createCommentWrite (db : DB) (caller : Nat) (content : String) (projectId : Nat)
    (parentCommentId : Option Nat) (newId : Nat) : Except ApiError Comment × DB :=
  let c := newCommentDoc caller content projectId parentCommentId newId
  let db1 : DB := { db with comments := db.comments ++ [c] }
  let db2 : DB :=
    match parentCommentId with
    | some pc =>
        let pushReply := fun parent => { parent with replies := parent.replies ++ [newId] }
        { db1 with comments := modifyComment db1.comments pc pushReply }
    | none => db1
  let incCount := fun p => { p with commentsCount := p.commentsCount + 1 }
  let db3 : DB := { db2 with projects := modifyProject db2.projects projectId incCount }
  (.ok c, db3)

/-- POST `/` on the comment router: check the project exists, check the
parent comment exists when a parent id is supplied, then perform the writes. -/
def createComment (db : DB) (caller : Nat) (content : String) (projectId : Nat)
    (parentCommentId : Option Nat) (newId : Nat) : Except ApiError Comment × DB :=
  match findProject db projectId with
  | none => (.error (.notFound "Project not found"), db)
  | some _ =>
    match parentCommentId with
    | some pc =>
      match findComment db pc with
      | none => (.error (.notFound "Parent comment not found"), db)
      | some _ => createCommentWrite db caller content projectId (some pc) newId
    | none => createCommentWrite db caller content projectId none newId

/-- PUT `/:id` on the comment router: find, author check, set content, save. -/
def updateComment (db : DB) (caller cid : Nat) (content : String) :
    Except ApiError Comment × DB :=
  match findComment db cid with
  | none => (.error (.notFound "Comment not found"), db)
  | some comment =>
    if comment.author != caller then (.error (.unauthorized "Not authorized"), db)
    else
      let saved := commentSave { comment with content := content }
      (.ok saved, { db with comments := modifyComment db.comments cid (fun _ => saved) })

/-- DELETE `/:id` on the comment router, in source order: find, author check,
`deleteMany({parentComment: id})`, `$pull` the id from the parent's replies if
it is itself a reply, then decrement the project's `commentsCount` by
`countDocuments({parentComment: id}) + 1` (the count is taken at this point,
after the deleteMany), and finally delete the comment itself. -/
def deleteComment (db : DB) (caller cid : Nat) : Except ApiError String × DB :=
  match findComment db cid with
  | none => (.error (.notFound "Comment not found"), db)
  | some comment =>
    if comment.author != caller then (.error (.unauthorized "Not authorized"), db)
    else
      let db1 : DB := { db with comments := db.comments.filter (fun c => c.parentComment != some cid) }
      let db2 : DB :=
        match comment.parentComment with
        | some pc =>
            let pullReply := fun parent => { parent with replies := parent.replies.filter (fun r => r != cid) }
            { db1 with comments := modifyComment db1.comments pc pullReply }
        | none => db1
      let totalCommentsDeleted : Int :=
        (db2.comments.filter (fun c => c.parentComment == some cid)).length + 1
      let decCount := fun p => { p with commentsCount := p.commentsCount - totalCommentsDeleted }
      let db3 : DB := { db2 with projects := modifyProject db2.projects comment.project decCount }
      let db4 : DB := { db3 with comments := db3.comments.filter (fun c => c.id != cid) }
      (.ok "Comment deleted successfully", db4)

/-- The liker-list toggle of the like routes: filter the user out if present
(`unlike`), append the user otherwise (`like`). -/
def toggledLikes (likes : List Nat) (userId : Nat) : List Nat :=
  if likes.contains userId then likes.filter (fun i => i != userId)
  else likes ++ [userId]

/-- POST `/:id/like` on the project router: find, toggle membership of the
caller in `likes`, `save()` (which runs the pre-save hook recomputing
`likesCount`), and answer with the new liked state and the saved counter. -/
def likeProject (db : DB) (userId pid : Nat) : Except ApiError LikeResp × DB :=
  match findProject db pid with
  | none => (.error (.notFound "Project not found"), db)
  | some project =>
    let userLiked := project.likes.contains userId
    let saved := projectSave { project with likes := toggledLikes project.likes userId }
    (.ok { liked := !userLiked, likesCount := saved.likesCount },
     { db with projects := modifyProject db.projects pid (fun _ => saved) })

/-- POST `/:id/like` on the comment router: same toggle on a comment. -/
def likeComment (db : DB) (userId cid : Nat) : Except ApiError LikeResp × DB :=
  match findComment db cid with
  | none => (.error (.notFound "Comment not found"), db)
  | some comment =>
    let userLiked := comment.likes.contains userId
    let saved := commentSave { comment with likes := toggledLikes comment.likes userId }
    (.ok { liked := !userLiked, likesCount := saved.likesCount },
     { db with comments := modifyComment db.comments cid (fun _ => saved) })

/-- Tag input handling: a comma-separated string split and trimmed. -/
def parseTags (s : String) : List String :=
  (s.splitOn ",").map String.trim

/-- The update payload of PUT `/:id` on the project router, restricted to the
schema fields (the source spreads the request body; only these fields are
documented and validated). -/
structure ProjectUpdate where
  title : Option String
  description : Option String
  image : Option String
  githubUrl : Option String
  liveUrl : Option String
  tags : Option String
deriving DecidableEq

/-- Apply a project update payload: absent fields keep their stored value,
a tags string is split/trimmed. -/
def applyProjectUpdate (p : Project) (u : ProjectUpdate) : Project :=
  { p with
    title := u.title.getD p.title,
    description := u.description.getD p.description,
    image := u.image.getD p.image,
    githubUrl := u.githubUrl.getD p.githubUrl,
    liveUrl := match u.liveUrl with | some s => some s | none => p.liveUrl,
    tags := match u.tags with | some s => parseTags s | none => p.tags }

/-- PUT `/:id` on the project router: find, author check, `findByIdAndUpdate`. -/
def updateProject (db : DB) (caller pid : Nat) (u : ProjectUpdate) :
    Except ApiError Project × DB :=
  match findProject db pid with
  | none => (.error (.notFound "Project not found"), db)
  | some project =>
    if project.author != caller then (.error (.unauthorized "Not authorized"), db)
    else
      let updated := applyProjectUpdate project u
      (.ok updated, { db with projects := modifyProject db.projects pid (fun _ => updated) })

/-- DELETE `/:id` on the project router: find, author check,
`Comment.deleteMany({project: id})`, then delete the project. -/
def deleteProject (db : DB) (caller pid : Nat) : Except ApiError String × DB :=
  match findProject db pid with
  | none => (.error (.notFound "Project not found"), db)
  | some project =>
    if project.author != caller then (.error (.unauthorized "Not authorized"), db)
    else
      let db1 : DB := { db with comments := db.comments.filter (fun c => c.project != pid) }
      let db2 : DB := { db1 with projects := db1.projects.filter (fun p => p.id != pid) }
      (.ok "Project deleted successfully", db2)

/-- Apply a profile update payload: the source passes
`{username, bio, avatar, githubProfile, portfolio}` to `findByIdAndUpdate`
and mongoose drops the absent (undefined) fields. -/
def applyProfileUpdate (u : User) (username bio avatar githubProfile portfolio : Option String) :
    User :=
  { u with
    username := username.getD u.username,
    bio := bio.getD u.bio,
    avatar := avatar.getD u.avatar,
    githubProfile := githubProfile.getD u.githubProfile,
    portfolio := portfolio.getD u.portfolio }

/-- PUT `/profile` on the user router: when a username is submitted and it
differs from the caller's current username, reject with the duplicate-username
error if any stored user already has it; otherwise write the update.  `caller`
is the authenticated user document supplied by the auth middleware.  A `none`
payload result mirrors `findByIdAndUpdate` returning null for an absent id. -/
def updateProfile (db : DB) (caller : User)
    (username bio avatar githubProfile portfolio : Option String) :
    Except ApiError (Option User) × DB :=
  let conflictHit : Bool :=
    match username with
    | some newName => newName != caller.username && db.users.any (fun v => v.username == newName)
    | none => false
  if conflictHit then (.error (.conflict "Username already taken"), db)
  else
    match findUser db caller.id with
    | none => (.ok none, db)
    | some stored =>
      let updated := applyProfileUpdate stored username bio avatar githubProfile portfolio
      (.ok (some updated),
       { db with users := modifyUser db.users caller.id (fun _ => updated) })

/-- The ids of the comments currently referencing `cid` as parent. -/
def repliesOf (cs : List Comment) (cid : Nat) : List Nat :=
  (cs.filter (fun c => c.parentComment == some cid)).map (fun c => c.id)

/-- The reply-tree invariant for one parent id: the stored reply-reference
list is, as a set, exactly the set of comments whose parent reference is
`cid`. -/
def replySetEq (cs : List Comment) (cid : Nat) (rs : List Nat) : Prop :=
  rs.toFinset = (repliesOf cs cid).toFinset

instance (cs : List Comment) (cid : Nat) (rs : List Nat) : Decidable (replySetEq cs cid rs) :=
  inferInstanceAs (Decidable (rs.toFinset = (repliesOf cs cid).toFinset))

/-! Concrete sample databases used to evaluate the routes on closed inputs. -/

/-- Sample A: a project whose counter is consistent (two comments) with one
top-level comment holding one reply. -/
def pA : Project := ⟨10, "t", "d", "img", "gh", none, [], 5, [], 0, 2⟩

def cA1 : Comment := ⟨1, "c one", 5, 10, none, [2], [], 0⟩

def cA2 : Comment := ⟨2, "c two", 6, 10, some 1, [], [], 0⟩

def dbA : DB := ⟨[], [pA], [cA1, cA2]⟩

/-- Sample B: a reply (id 12) to a top-level comment (id 11). -/
def pB : Project := ⟨20, "t", "d", "img", "gh", none, [], 5, [], 0, 2⟩

def cB1 : Comment := ⟨11, "top", 5, 20, none, [12], [], 0⟩

def cB2 : Comment := ⟨12, "reply", 6, 20, some 11, [], [], 0⟩

def dbB : DB := ⟨[], [pB], [cB1, cB2]⟩

/-- Sample C: a project with a single top-level comment. -/
def pC : Project := ⟨30, "t", "d", "img", "gh", none, [], 5, [], 0, 1⟩

def cC1 : Comment := ⟨21, "top", 5, 30, none, [], [], 0⟩

def dbC : DB := ⟨[], [pC], [cC1]⟩

/-- Sample D: a project already liked by users 1 and 2. -/
def pD : Project := ⟨40, "t", "d", "img", "gh", none, [], 5, [1, 2], 2, 0⟩

def dbD : DB := ⟨[], [pD], []⟩

/-- Sample E: a project with no likes. -/
def pE : Project := ⟨50, "t", "d", "img", "gh", none, [], 5, [], 0, 0⟩

def dbE : DB := ⟨[], [pE], []⟩

/-- Sample F: a project and no comments at all. -/
def pF : Project := ⟨60, "t", "d", "img", "gh", none, [], 5, [], 0, 0⟩

def dbF : DB := ⟨[], [pF], []⟩

/-- Sample G: two users with distinct usernames. -/
def uG1 : User := ⟨1, "alice", "a@x.io", "h1", "av", "", "", ""⟩

def uG2 : User := ⟨2, "bob", "b@x.io", "h2", "av", "", "", ""⟩

def dbG : DB := ⟨[uG1, uG2], [], []⟩

/-- Sample H: a project owned by user 5 and a comment owned by user 6. -/
def pH : Project := ⟨70, "t", "d", "img", "gh", none, [], 5, [], 0, 1⟩

def cH1 : Comment := ⟨71, "c", 6, 70, none, [], [], 0⟩

def dbH : DB := ⟨[], [pH], [cH1]⟩

/-- Sample I: a comment by user 4 with some replies and likes, to exercise the
frame property of the comment update. -/
def pI : Project := ⟨80, "t", "d", "img", "gh", none, [], 5, [], 0, 2⟩

def cI1 : Comment := ⟨81, "old", 4, 80, none, [82], [9], 1⟩

def cI2 : Comment := ⟨82, "r", 7, 80, some 81, [], [], 0⟩

def dbI : DB := ⟨[], [pI], [cI1, cI2]⟩

/-- Sample J: a top-level comment (id 1) with one reply (id 2), counters
consistent, used for the reply-tree invariant. -/
def pJ : Project := ⟨90, "t", "d", "img", "gh", none, [], 5, [], 0, 2⟩

def cJ1 : Comment := ⟨1, "top", 5, 90, none, [2], [], 0⟩

def cJ2 : Comment := ⟨2, "reply", 6, 90, some 1, [], [], 0⟩

def dbJ : DB := ⟨[], [pJ], [cJ1, cJ2]⟩

/-! Generic lemmas about find-by-key over the list operations the routes use. -/

/-- Updating the documents whose key is `i` rewrites what find-by-`i` returns,
provided the update keeps the key of a matching document. -/
theorem find_guard_update {α : Type} (key : α → Nat) (l : List α) (i : Nat) (f : α → α)
    (hf : ∀ a, key a = i → key (f a) = i) :
    (l.map (fun a => if key a == i then f a else a)).find? (fun a => key a == i)
      = (l.find? (fun a => key a == i)).map f := by
  have hq : ((fun a => key a == i) ∘ fun a => if key a == i then f a else a)
      = (fun a => key a == i) := by
    funext a
    by_cases h : key a = i
    · simp [Function.comp, h, hf a h]
    · simp [Function.comp, h]
  rw [List.find?_map, hq]
  cases hfind : l.find? (fun a => key a == i) with
  | none => rfl
  | some a =>
    have ha : key a = i := by simpa using List.find?_some hfind
    simp [ha]

/-- Updating the documents whose key is `i` leaves find-by-`j` unchanged for
`j ≠ i`, provided the update keeps the key of a matching document. -/
theorem find_guard_update_ne {α : Type} (key : α → Nat) (l : List α) (i j : Nat) (f : α → α)
    (hf : ∀ a, key a = i → key (f a) = i) (hij : j ≠ i) :
    (l.map (fun a => if key a == i then f a else a)).find? (fun a => key a == j)
      = l.find? (fun a => key a == j) := by
  have hq : ((fun a => key a == j) ∘ fun a => if key a == i then f a else a)
      = (fun a => key a == j) := by
    funext a
    by_cases h : key a = i
    · have h2 : key (f a) ≠ j := by rw [hf a h]; exact fun hh => hij hh.symm
      have h6 : ¬i = j := fun hh => hij hh.symm
      simp [Function.comp, h, h2, h6]
    · simp [Function.comp, h]
  rw [List.find?_map, hq]
  cases hfind : l.find? (fun a => key a == j) with
  | none => rfl
  | some a =>
    have ha : key a = j := by simpa using List.find?_some hfind
    simp [ha, hij]

/-- find? over an append finds whatever the left part finds. -/
theorem find_append_first {α : Type} (p : α → Bool) (l₁ l₂ : List α) (a : α)
    (h : l₁.find? p = some a) : (l₁ ++ l₂).find? p = some a := by
  induction l₁ with
  | nil => simp [List.find?] at h
  | cons b t ih =>
    rw [List.cons_append]
    cases hb : p b with
    | true =>
      rw [List.find?_cons_of_pos _ hb] at h
      rw [List.find?_cons_of_pos _ hb]
      exact h
    | false =>
      rw [List.find?_cons_of_neg _ (by simp [hb])] at h
      rw [List.find?_cons_of_neg _ (by simp [hb])]
      exact ih h

/-- With pairwise-distinct keys, find-by-key returns any member that carries
the key. -/
theorem find_key_unique {α : Type} (key : α → Nat) (l : List α) (i : Nat) (a : α)
    (hnd : (l.map key).Nodup) (ha : a ∈ l) (hk : key a = i) :
    l.find? (fun x => key x == i) = some a := by
  induction l with
  | nil => cases ha
  | cons b t ih =>
    simp only [List.map_cons, List.nodup_cons] at hnd
    rcases List.mem_cons.mp ha with rfl | hat
    · simp [List.find?_cons, hk]
    · have hb : key b ≠ i := by
        intro hbi
        apply hnd.1
        rw [hbi, ← hk]
        exact List.mem_map_of_mem key hat
      simp [List.find?_cons, hb, ih hnd.2 hat]

/-- Updating the documents whose key is `i` does not change the key multiset,
provided the update keeps the key of a matching document. -/
theorem map_key_guard {α : Type} (key : α → Nat) (l : List α) (i : Nat) (f : α → α)
    (hf : ∀ a, key a = i → key (f a) = i) :
    (l.map (fun a => if key a == i then f a else a)).map key = l.map key := by
  rw [List.map_map]
  congr 1
  funext a
  by_cases h : key a = i
  · simp [Function.comp, h, hf a h]
  · simp [Function.comp, h]

/-- Membership characterization of the reply-tree invariant. -/
theorem replySetEq_iff (cs : List Comment) (cid : Nat) (rs : List Nat) :
    replySetEq cs cid rs ↔
      ∀ i, i ∈ rs ↔ ∃ c, c ∈ cs ∧ c.parentComment = some cid ∧ c.id = i := by
  unfold replySetEq repliesOf
  rw [Finset.ext_iff]
  constructor
  · intro h i
    have h2 := h i
    simp only [List.mem_toFinset, List.mem_map, List.mem_filter, beq_iff_eq, and_assoc] at h2
    exact h2
  · intro h i
    have h2 := h i
    simp only [List.mem_toFinset, List.mem_map, List.mem_filter, beq_iff_eq, and_assoc]
    exact h2

/-- find-by-id on a database whose project collection was updated by id. -/
theorem findProject_modify (us : List User) (pl : List Project) (cs : List Comment) (i : Nat)
    (f : Project → Project) (hf : ∀ p, p.id = i → (f p).id = i) :
    findProject ⟨us, modifyProject pl i f, cs⟩ i = (pl.find? (fun p => p.id == i)).map f := by
  show (modifyProject pl i f).find? (fun p => p.id == i) = _
  exact find_guard_update Project.id pl i f hf

/-- find-by-id on a database whose comment collection was updated by id. -/
theorem findComment_modify (us : List User) (pl : List Project) (cs : List Comment) (i : Nat)
    (f : Comment → Comment) (hf : ∀ c, c.id = i → (f c).id = i) :
    findComment ⟨us, pl, modifyComment cs i f⟩ i = (cs.find? (fun c => c.id == i)).map f := by
  show (modifyComment cs i f).find? (fun c => c.id == i) = _
  exact find_guard_update Comment.id cs i f hf

/-- C1: deleting a top-level comment that has N replies does remove N+1
comments, but it decrements the project's commentsCount by 1, not by N+1:
the route counts the remaining replies only after `deleteMany` has already
removed them, so the count is always 0 and the decrement always 1.  Concrete
run: project 10 has commentsCount 2; comment 1 has one reply (N = 1);
deleting comment 1 removes both comments yet leaves commentsCount at 1
instead of 0. -/
theorem delete_comment_counter_eval :
    (deleteComment dbA 5 1).2.comments = [] ∧
    findProject (deleteComment dbA 5 1).2 10 = some { pA with commentsCount := 1 } ∧
    findProject (deleteComment dbA 5 1).2 10 ≠ some { pA with commentsCount := 0 } := by
  refine ⟨rfl, rfl, ?_⟩
  decide

/-- C3 counterexample: the create-comment route checks only that the parent
exists, not that it is top-level.  In dbB, comment 12 is itself a reply
(parent 11); creating comment 13 with parent 12 succeeds, so a comment whose
parent reference is non-null does appear as the parent of another comment and
nesting exceeds two levels. -/
theorem reply_to_reply_allowed :
    (createComment dbB 7 "deep" 20 (some 12) 13).1
        = .ok (newCommentDoc 7 "deep" 20 (some 12) 13) ∧
    (newCommentDoc 7 "deep" 20 (some 12) 13).parentComment = some 12 ∧
    findComment (createComment dbB 7 "deep" 20 (some 12) 13).2 13
        = some (newCommentDoc 7 "deep" 20 (some 12) 13) ∧
    findComment dbB 12 = some cB2 ∧ cB2.parentComment = some 11 := by
  refine ⟨rfl, rfl, rfl, rfl, rfl⟩

/-- C3 amended: a created comment's parent must exist at creation time but
need not be top-level; the route accepts any existing comment (top-level or
reply) as parent, and the new comment records exactly the supplied parent
reference. -/
theorem create_reply_requires_only_parent_existence (db : DB) (caller : Nat) (content : String)
    (pid : Nat) (P : Project) (pcid newId : Nat) (pc : Comment)
    (hP : findProject db pid = some P) (hpc : findComment db pcid = some pc) :
    (createComment db caller content pid (some pcid) newId).1
        = .ok (newCommentDoc caller content pid (some pcid) newId) ∧
    (newCommentDoc caller content pid (some pcid) newId).parentComment = some pcid := by
  constructor
  · simp [createComment, hP, hpc, createCommentWrite]
  · rfl

/-- Witness for C3's amended theorem: comment 12 of dbB is a reply, yet it is
accepted as parent. -/
theorem create_reply_requires_only_parent_existence_witness :
    (createComment dbB 9 "w" 20 (some 12) 14).1
        = .ok (newCommentDoc 9 "w" 20 (some 12) 14) ∧
    (newCommentDoc 9 "w" 20 (some 12) 14).parentComment = some 12 :=
  create_reply_requires_only_parent_existence dbB 9 "w" 20 pB 12 14 cB2 rfl rfl

/-- C5: every successful comment creation under an existing project
(top-level or reply) increments exactly that project's commentsCount by 1 and
changes none of its other fields. -/
theorem create_comment_increments_count (db : DB) (caller : Nat) (content : String)
    (pid : Nat) (parent : Option Nat) (newId : Nat) (p : Project)
    (hp : findProject db pid = some p)
    (hparent : parent = none ∨ ∃ pc c, parent = some pc ∧ findComment db pc = some c) :
    (createComment db caller content pid parent newId).1
        = .ok (newCommentDoc caller content pid parent newId) ∧
    findProject (createComment db caller content pid parent newId).2 pid
        = some { p with commentsCount := p.commentsCount + 1 } := by
  have hp' : db.projects.find? (fun q => q.id == pid) = some p := hp
  rcases hparent with rfl | ⟨pc, c, rfl, hc⟩
  · refine ⟨by simp [createComment, hp, createCommentWrite], ?_⟩
    have h2 : (createComment db caller content pid none newId).2
        = ⟨db.users,
           modifyProject db.projects pid (fun q => { q with commentsCount := q.commentsCount + 1 }),
           db.comments ++ [newCommentDoc caller content pid none newId]⟩ := by
      simp [createComment, hp, createCommentWrite]
    rw [h2, findProject_modify, hp']
    · rfl
    · exact fun q hq => hq
  · refine ⟨by simp [createComment, hp, hc, createCommentWrite], ?_⟩
    have h2 : (createComment db caller content pid (some pc) newId).2
        = ⟨db.users,
           modifyProject db.projects pid (fun q => { q with commentsCount := q.commentsCount + 1 }),
           modifyComment (db.comments ++ [newCommentDoc caller content pid (some pc) newId]) pc
             (fun parent => { parent with replies := parent.replies ++ [newId] })⟩ := by
      simp [createComment, hp, hc, createCommentWrite]
    rw [h2, findProject_modify, hp']
    · rfl
    · exact fun q hq => hq

/-- Witness for C5: creating a reply to comment 21 under project 30 bumps the
project's commentsCount from 1 to 2. -/
theorem create_comment_increments_count_witness :
    (createComment dbC 8 "x" 30 (some 21) 22).1 = .ok (newCommentDoc 8 "x" 30 (some 21) 22) ∧
    findProject (createComment dbC 8 "x" 30 (some 21) 22).2 30
        = some { pC with commentsCount := pC.commentsCount + 1 } :=
  create_comment_increments_count dbC 8 "x" 30 (some 21) 22 pC rfl
    (Or.inr ⟨21, cC1, rfl, rfl⟩)

/-- C6: a create-comment request naming a parent comment that does not exist
fails with a NotFound error (for the project or for the parent, both 404),
creates no comment and leaves the database completely unchanged. -/
theorem reply_missing_parent_rejected (db : DB) (caller : Nat) (content : String)
    (pid pcid newId : Nat) (h : findComment db pcid = none) :
    ((createComment db caller content pid (some pcid) newId).1
        = .error (.notFound "Project not found") ∨
     (createComment db caller content pid (some pcid) newId).1
        = .error (.notFound "Parent comment not found")) ∧
    (createComment db caller content pid (some pcid) newId).2 = db := by
  cases hp : findProject db pid with
  | none => exact ⟨Or.inl (by simp [createComment, hp]), by simp [createComment, hp]⟩
  | some P => exact ⟨Or.inr (by simp [createComment, hp, h]), by simp [createComment, hp, h]⟩

/-- Witness for C6: replying to the absent comment 99 in dbF is rejected and
dbF is unchanged. -/
theorem reply_missing_parent_rejected_witness :
    ((createComment dbF 5 "x" 60 (some 99) 7).1 = .error (.notFound "Project not found") ∨
     (createComment dbF 5 "x" 60 (some 99) 7).1 = .error (.notFound "Parent comment not found")) ∧
    (createComment dbF 5 "x" 60 (some 99) 7).2 = dbF :=
  reply_missing_parent_rejected dbF 5 "x" 60 99 7 rfl

/-- C9: an update or delete of an existing project or comment by an
authenticated caller who is not its author fails with the Unauthorized error
(status 403), different from the NotFound error (status 404), and the
database is completely unchanged in all four cases. -/
theorem non_author_mutation_rejected (db : DB) (caller pid cid : Nat) (p : Project) (c : Comment)
    (u : ProjectUpdate) (content : String)
    (hp : findProject db pid = some p) (hpa : p.author ≠ caller)
    (hc : findComment db cid = some c) (hca : c.author ≠ caller) :
    updateProject db caller pid u = (.error (.unauthorized "Not authorized"), db) ∧
    deleteProject db caller pid = (.error (.unauthorized "Not authorized"), db) ∧
    updateComment db caller cid content = (.error (.unauthorized "Not authorized"), db) ∧
    deleteComment db caller cid = (.error (.unauthorized "Not authorized"), db) ∧
    ApiError.unauthorized "Not authorized" ≠ ApiError.notFound "Project not found" ∧
    ApiError.unauthorized "Not authorized" ≠ ApiError.notFound "Comment not found" ∧
    (ApiError.unauthorized "Not authorized").status = 403 ∧
    (ApiError.notFound "Project not found").status = 404 := by
  refine ⟨?_, ?_, ?_, ?_, by decide, by decide, rfl, rfl⟩
  · simp [updateProject, hp, bne_iff_ne, hpa]
  · simp [deleteProject, hp, bne_iff_ne, hpa]
  · simp [updateComment, hc, bne_iff_ne, hca]
  · simp [deleteComment, hc, bne_iff_ne, hca]

/-- Witness for C9: caller 9 owns neither project 70 (author 5) nor comment
71 (author 6); all four mutations are rejected unchanged. -/
theorem non_author_mutation_rejected_witness :
    updateProject dbH 9 70 ⟨none, none, none, none, none, none⟩
        = (.error (.unauthorized "Not authorized"), dbH) ∧
    deleteProject dbH 9 70 = (.error (.unauthorized "Not authorized"), dbH) ∧
    updateComment dbH 9 71 "x" = (.error (.unauthorized "Not authorized"), dbH) ∧
    deleteComment dbH 9 71 = (.error (.unauthorized "Not authorized"), dbH) ∧
    ApiError.unauthorized "Not authorized" ≠ ApiError.notFound "Project not found" ∧
    ApiError.unauthorized "Not authorized" ≠ ApiError.notFound "Comment not found" ∧
    (ApiError.unauthorized "Not authorized").status = 403 ∧
    (ApiError.notFound "Project not found").status = 404 :=
  non_author_mutation_rejected dbH 9 70 71 pH cH1 ⟨none, none, none, none, none, none⟩ "x"
    rfl (by decide) rfl (by decide)

/-- C8: a profile update submitting a username that differs from the caller's
current one and is already held by some stored user fails with the Conflict
error before any write (the database is returned unchanged, so the caller's
record keeps its original username); and when the submitted username equals
the caller's current one the uniqueness check is skipped entirely, so the
operation never yields the Conflict error. -/
theorem username_conflict_checked (db : DB) (caller v : User) (newName : String)
    (bio avatar gh pf : Option String)
    (hv : v ∈ db.users) (hvn : v.username = newName) (hne : newName ≠ caller.username) :
    updateProfile db caller (some newName) bio avatar gh pf
        = (.error (.conflict "Username already taken"), db) ∧
    (updateProfile db caller (some caller.username) bio avatar gh pf).1
        ≠ .error (.conflict "Username already taken") := by
  constructor
  · have hhit : (newName != caller.username
        && db.users.any (fun w => w.username == newName)) = true := by
      rw [Bool.and_eq_true]
      refine ⟨bne_iff_ne.mpr hne, ?_⟩
      rw [List.any_eq_true]
      exact ⟨v, hv, by simp [hvn]⟩
    simp [updateProfile, hhit]
  · have hmiss : (caller.username != caller.username) = false := by simp
    simp only [updateProfile, hmiss, Bool.false_and, Bool.false_eq_true, if_false]
    cases hfu : findUser db caller.id with
    | none => simp
    | some stored => simp

/-- Witness for C8: alice submitting bob's username is rejected with the
database unchanged; alice submitting her own username is never a conflict. -/
theorem username_conflict_checked_witness :
    updateProfile dbG uG1 (some "bob") none none none none
        = (.error (.conflict "Username already taken"), dbG) ∧
    (updateProfile dbG uG1 (some uG1.username) none none none none).1
        ≠ .error (.conflict "Username already taken") :=
  username_conflict_checked dbG uG1 uG2 "bob" none none none none
    (by decide) rfl (by decide)

/-- C10: updating a comment's content (author, valid content) yields the
saved comment whose content is the new string while its author, project,
parent reference, reply list and liker list are untouched; the project and
user collections (hence the owning project's commentsCount) are unchanged,
and every other comment id resolves exactly as before. -/
theorem update_comment_frame (db : DB) (caller cid : Nat) (c : Comment) (content : String)
    (hc : findComment db cid = some c) (hca : c.author = caller) :
    (updateComment db caller cid content).1 = .ok (commentSave { c with content := content }) ∧
    (updateComment db caller cid content).2.projects = db.projects ∧
    (updateComment db caller cid content).2.users = db.users ∧
    findComment (updateComment db caller cid content).2 cid
        = some (commentSave { c with content := content }) ∧
    (commentSave { c with content := content }).content = content ∧
    (commentSave { c with content := content }).author = c.author ∧
    (commentSave { c with content := content }).project = c.project ∧
    (commentSave { c with content := content }).parentComment = c.parentComment ∧
    (commentSave { c with content := content }).replies = c.replies ∧
    (commentSave { c with content := content }).likes = c.likes ∧
    (∀ j, j ≠ cid → findComment (updateComment db caller cid content).2 j = findComment db j) := by
  have hcid : c.id = cid := by simpa using List.find?_some hc
  have hc' : db.comments.find? (fun x => x.id == cid) = some c := hc
  have hauth : (c.author != caller) = false := by simp [hca]
  have h2 : (updateComment db caller cid content).2
      = ⟨db.users, db.projects,
         modifyComment db.comments cid (fun _ => commentSave { c with content := content })⟩ := by
    simp [updateComment, hc, hauth]
  refine ⟨by simp [updateComment, hc, hauth], by rw [h2], by rw [h2], ?_, rfl, rfl, rfl, rfl,
    rfl, rfl, ?_⟩
  · rw [h2, findComment_modify, hc']
    · rfl
    · exact fun x hx => hcid
  · intro j hj
    rw [h2]
    show (modifyComment db.comments cid _).find? (fun x => x.id == j) = _
    exact find_guard_update_ne Comment.id db.comments cid j _ (fun x hx => hcid) hj

/-- Witness for C10: user 4 rewrites the content of comment 81; every other
field and the rest of the database is untouched, and comment 82 resolves as
before. -/
theorem update_comment_frame_witness :
    (updateComment dbI 4 81 "new").1 = .ok (commentSave { cI1 with content := "new" }) ∧
    (updateComment dbI 4 81 "new").2.projects = dbI.projects ∧
    (updateComment dbI 4 81 "new").2.users = dbI.users ∧
    findComment (updateComment dbI 4 81 "new").2 81
        = some (commentSave { cI1 with content := "new" }) ∧
    (commentSave { cI1 with content := "new" }).content = "new" ∧
    (commentSave { cI1 with content := "new" }).author = cI1.author ∧
    (commentSave { cI1 with content := "new" }).project = cI1.project ∧
    (commentSave { cI1 with content := "new" }).parentComment = cI1.parentComment ∧
    (commentSave { cI1 with content := "new" }).replies = cI1.replies ∧
    (commentSave { cI1 with content := "new" }).likes = cI1.likes ∧
    (∀ j, j ≠ 81 → findComment (updateComment dbI 4 81 "new").2 j = findComment dbI j) :=
  update_comment_frame dbI 4 81 cI1 "new" rfl rfl

/-- The new database state produced by a successful project like toggle. -/
theorem likeProject_state (db : DB) (userId pid : Nat) (p : Project)
    (hp : findProject db pid = some p) :
    (likeProject db userId pid).2
      = ⟨db.users, modifyProject db.projects pid
          (fun _ => projectSave { p with likes := toggledLikes p.likes userId }), db.comments⟩ := by
  simp [likeProject, hp]

/-- The response body produced by a successful project like toggle. -/
theorem likeProject_resp (db : DB) (userId pid : Nat) (p : Project)
    (hp : findProject db pid = some p) :
    (likeProject db userId pid).1
      = .ok ⟨!(p.likes.contains userId),
             (projectSave { p with likes := toggledLikes p.likes userId }).likesCount⟩ := by
  simp [likeProject, hp]

/-- After a like toggle, looking the project up returns the saved document. -/
theorem findProject_like (db : DB) (userId pid : Nat) (p : Project)
    (hp : findProject db pid = some p) :
    findProject (likeProject db userId pid).2 pid
      = some (projectSave { p with likes := toggledLikes p.likes userId }) := by
  have hpid : p.id = pid := by simpa using List.find?_some hp
  have hp' : db.projects.find? (fun q => q.id == pid) = some p := hp
  rw [likeProject_state db userId pid p hp, findProject_modify, hp']
  · rfl
  · exact fun q hq => hpid

/-- C2: after any like toggle on an existing project whose liker list is
duplicate-free, the stored project is the saved document whose likesCount
equals the cardinality of its liker set (the toggled list stays
duplicate-free, so the recomputed length is the set size); the recomputation
is part of the same save that writes the toggled list. -/
theorem like_toggle_count_invariant (db : DB) (userId pid : Nat) (p : Project)
    (hp : findProject db pid = some p) (hnd : p.likes.Nodup) :
    findProject (likeProject db userId pid).2 pid
        = some (projectSave { p with likes := toggledLikes p.likes userId }) ∧
    (projectSave { p with likes := toggledLikes p.likes userId }).likes.Nodup ∧
    (projectSave { p with likes := toggledLikes p.likes userId }).likesCount
        = (projectSave { p with likes := toggledLikes p.likes userId }).likes.toFinset.card := by
  have hndtog : (toggledLikes p.likes userId).Nodup := by
    unfold toggledLikes
    by_cases h : p.likes.contains userId
    · simp only [h, if_true]
      exact hnd.filter _
    · simp only [h, if_false]
      have hmem : userId ∉ p.likes := fun hm => h (List.elem_iff.mpr hm)
      simp [List.nodup_append, hnd, hmem]
  refine ⟨findProject_like db userId pid p hp, hndtog, ?_⟩
  show (toggledLikes p.likes userId).length = (toggledLikes p.likes userId).toFinset.card
  rw [List.toFinset_card_of_nodup hndtog]

/-- Witness for C2: user 2 unlikes project 40; the saved document's counter
matches its liker-set size. -/
theorem like_toggle_count_invariant_witness :
    findProject (likeProject dbD 2 40).2 40
        = some (projectSave { pD with likes := toggledLikes pD.likes 2 }) ∧
    (projectSave { pD with likes := toggledLikes pD.likes 2 }).likes.Nodup ∧
    (projectSave { pD with likes := toggledLikes pD.likes 2 }).likesCount
        = (projectSave { pD with likes := toggledLikes pD.likes 2 }).likes.toFinset.card :=
  like_toggle_count_invariant dbD 2 40 pD rfl (by decide)

/-- C7: for a user not currently in the project's liker set (and a stored
counter consistent with the list), two successive like toggles round-trip:
the first responds liked = true with the incremented count, the second
responds liked = false with the count back at its original value, both
responses carrying exactly the liked/likesCount pair, and the stored project
is back to its original document. -/
theorem like_unlike_round_trip (db : DB) (userId pid : Nat) (p : Project)
    (hp : findProject db pid = some p) (hu : userId ∉ p.likes)
    (hcnt : p.likesCount = p.likes.length) :
    (likeProject db userId pid).1 = .ok ⟨true, p.likes.length + 1⟩ ∧
    (likeProject (likeProject db userId pid).2 userId pid).1 = .ok ⟨false, p.likesCount⟩ ∧
    findProject (likeProject (likeProject db userId pid).2 userId pid).2 pid = some p := by
  have hpid : p.id = pid := by simpa using List.find?_some hp
  have hcont : p.likes.contains userId = false := by
    rw [Bool.eq_false_iff]
    intro hT
    exact hu (List.elem_iff.mp hT)
  have htog1 : toggledLikes p.likes userId = p.likes ++ [userId] := by
    simp [toggledLikes, hcont]
    intro h
    exact absurd h hu
  have hcont2 : (p.likes ++ [userId]).contains userId = true := by
    simp [List.elem_iff]
  have hfilter : (p.likes ++ [userId]).filter (fun i => i != userId) = p.likes := by
    rw [List.filter_append]
    have hf1 : p.likes.filter (fun i => i != userId) = p.likes :=
      List.filter_eq_self.mpr (fun a ha => bne_iff_ne.mpr (fun heq => hu (heq ▸ ha)))
    have hf2 : List.filter (fun i => i != userId) [userId] = ([] : List Nat) := by simp
    rw [hf1, hf2, List.append_nil]
  have htog2 : toggledLikes (p.likes ++ [userId]) userId = p.likes := by
    simp [toggledLikes, hcont2, hfilter]
  refine ⟨?_, ?_, ?_⟩
  · rw [likeProject_resp db userId pid p hp, hcont, htog1]
    simp [projectSave]
  · rw [likeProject_resp _ userId pid _ (findProject_like db userId pid p hp)]
    simp [projectSave, htog1, hcont2, htog2, hcnt]
  · rw [likeProject_state _ userId pid _ (findProject_like db userId pid p hp),
      findProject_modify]
    · have hq' : (likeProject db userId pid).2.projects.find? (fun x => x.id == pid)
          = some (projectSave { p with likes := toggledLikes p.likes userId }) :=
        findProject_like db userId pid p hp
      rw [hq']
      show some (projectSave _) = some p
      congr 1
      obtain ⟨i1, t1, d1, m1, g1, l1, tg1, a1, lk1, lc1, cc1⟩ := p
      simp only [projectSave] at htog1 htog2 hcnt ⊢
      simp [htog1, htog2, hcnt]
    · exact fun x hx => hpid

/-- Witness for C7: user 9 likes then unlikes project 50, returning the
state and counter to their original values. -/
theorem like_unlike_round_trip_witness :
    (likeProject dbE 9 50).1 = .ok ⟨true, pE.likes.length + 1⟩ ∧
    (likeProject (likeProject dbE 9 50).2 9 50).1 = .ok ⟨false, pE.likesCount⟩ ∧
    findProject (likeProject (likeProject dbE 9 50).2 9 50).2 50 = some pE :=
  like_unlike_round_trip dbE 9 50 pE rfl (by decide) rfl

/-- Membership in an id-guarded comment-collection update. -/
theorem mem_modifyComment (l : List Comment) (i : Nat) (f : Comment → Comment) (x : Comment) :
    x ∈ modifyComment l i f ↔ ∃ c, c ∈ l ∧ x = (if c.id == i then f c else c) := by
  unfold modifyComment
  rw [List.mem_map]
  constructor
  · rintro ⟨c, hc, rfl⟩
    exact ⟨c, hc, rfl⟩
  · rintro ⟨c, hc, rfl⟩
    exact ⟨c, hc, rfl⟩

/-- An id-guarded comment-collection update keeps the stored id list,
provided the update keeps the id of a matching document. -/
theorem map_id_modifyComment (l : List Comment) (i : Nat) (f : Comment → Comment)
    (hf : ∀ c, c.id = i → (f c).id = i) :
    (modifyComment l i f).map (fun x => x.id) = l.map (fun x => x.id) := by
  show ((l.map (fun a => if Comment.id a == i then f a else a)).map Comment.id)
      = l.map Comment.id
  exact map_key_guard Comment.id l i f hf

/-- C4: for a top-level comment C whose stored reply list is (as a set)
exactly the comments referencing it as parent, both creating a reply to C
and deleting a reply of C preserve this: after a create, C's stored list is
the old one with the new id appended and the invariant holds again; after a
delete of reply R (by its author), C's stored list is the old one with R's id
removed and the invariant holds again.  The delete direction assumes the
comment ids are pairwise distinct, which the store guarantees. -/
theorem replyset_maintained (db : DB) (cid : Nat) (C : Comment)
    (hC : findComment db cid = some C) (htop : C.parentComment = none)
    (hinv : replySetEq db.comments cid C.replies) :
    (∀ caller content pid P newId, findProject db pid = some P →
      findComment (createComment db caller content pid (some cid) newId).2 cid
          = some { C with replies := C.replies ++ [newId] } ∧
      replySetEq (createComment db caller content pid (some cid) newId).2.comments cid
          (C.replies ++ [newId])) ∧
    (∀ rid R, findComment db rid = some R → R.parentComment = some cid →
      (db.comments.map (fun x => x.id)).Nodup →
      findComment (deleteComment db R.author rid).2 cid
          = some { C with replies := C.replies.filter (fun r => r != rid) } ∧
      replySetEq (deleteComment db R.author rid).2.comments cid
          (C.replies.filter (fun r => r != rid))) := by
  have hcid : C.id = cid := by simpa using List.find?_some hC
  have hCmem : C ∈ db.comments := List.mem_of_find?_eq_some hC
  have hC' : db.comments.find? (fun x => x.id == cid) = some C := hC
  have hinv' := (replySetEq_iff db.comments cid C.replies).mp hinv
  constructor
  · intro caller content pid P newId hP
    have h2 : (createComment db caller content pid (some cid) newId).2
        = ⟨db.users,
           modifyProject db.projects pid (fun q => { q with commentsCount := q.commentsCount + 1 }),
           modifyComment (db.comments ++ [newCommentDoc caller content pid (some cid) newId]) cid
             (fun parent => { parent with replies := parent.replies ++ [newId] })⟩ := by
      simp [createComment, hP, hC, createCommentWrite]
    constructor
    · rw [h2, findComment_modify]
      · rw [find_append_first (fun x => x.id == cid) db.comments _ C hC']
        rfl
      · exact fun x hx => hx
    · rw [h2]
      rw [replySetEq_iff]
      intro i
      have hgp : ∀ r : Comment,
          ((if r.id == cid then { r with replies := r.replies ++ [newId] } else r) :
            Comment).parentComment = r.parentComment := by
        intro r
        by_cases h : r.id = cid <;> simp [h]
      have hgi : ∀ r : Comment,
          ((if r.id == cid then { r with replies := r.replies ++ [newId] } else r) :
            Comment).id = r.id := by
        intro r
        by_cases h : r.id = cid <;> simp [h]
      constructor
      · intro hi
        rcases List.mem_append.mp hi with hi1 | hi2
        · rcases (hinv' i).mp hi1 with ⟨r, hr1, hr2, hr3⟩
          refine ⟨(if r.id == cid then { r with replies := r.replies ++ [newId] } else r),
            ?_, ?_, ?_⟩
          · exact (mem_modifyComment _ _ _ _).mpr ⟨r, List.mem_append_left _ hr1, rfl⟩
          · rw [hgp r]; exact hr2
          · rw [hgi r]; exact hr3
        · have hin : i = newId := by simpa using hi2
          refine ⟨(if (newCommentDoc caller content pid (some cid) newId).id == cid then
              { newCommentDoc caller content pid (some cid) newId with
                replies := (newCommentDoc caller content pid (some cid) newId).replies ++ [newId] }
            else newCommentDoc caller content pid (some cid) newId), ?_, ?_, ?_⟩
          · exact (mem_modifyComment _ _ _ _).mpr
              ⟨newCommentDoc caller content pid (some cid) newId,
               List.mem_append_right _ (List.mem_singleton.mpr rfl), rfl⟩
          · rw [hgp _]; rfl
          · rw [hgi _]; exact hin.symm
      · rintro ⟨x, hx, hxp, hxi⟩
        rcases (mem_modifyComment _ _ _ _).mp hx with ⟨r, hr1, rfl⟩
        have hrp : r.parentComment = some cid := by rw [← hgp r]; exact hxp
        have hri : r.id = i := by rw [← hgi r]; exact hxi
        rcases List.mem_append.mp hr1 with hr2 | hr3
        · exact List.mem_append_left _ ((hinv' i).mpr ⟨r, hr2, hrp, hri⟩)
        · have hrn : r = newCommentDoc caller content pid (some cid) newId := by
            simpa using hr3
          apply List.mem_append_right
          rw [List.mem_singleton, ← hri, hrn]
          rfl
  · intro rid R hR hRp hnd
    have hrid : R.id = rid := by simpa using List.find?_some hR
    have hauth : (R.author != R.author) = false := by simp
    have hne : cid ≠ rid := by
      intro he
      have h3 : findComment db rid = some C := by rw [← he]; exact hC
      rw [hR] at h3
      have h4 : R = C := Option.some.inj h3
      rw [h4, htop] at hRp
      cases hRp
    have h2 : (deleteComment db R.author rid).2.comments
        = (modifyComment (db.comments.filter (fun x => x.parentComment != some rid)) cid
            (fun parent => { parent with
                replies := parent.replies.filter (fun x => x != rid) })).filter
            (fun x => x.id != rid) := by
      simp [deleteComment, hR, hauth, hRp]
    have hgp2 : ∀ r : Comment,
        ((if r.id == cid then
            { r with replies := r.replies.filter (fun x => x != rid) } else r) :
          Comment).parentComment = r.parentComment := by
      intro r
      by_cases h : r.id = cid <;> simp [h]
    have hgi2 : ∀ r : Comment,
        ((if r.id == cid then
            { r with replies := r.replies.filter (fun x => x != rid) } else r) :
          Comment).id = r.id := by
      intro r
      by_cases h : r.id = cid <;> simp [h]
    have hnd1 : ((db.comments.filter (fun x => x.parentComment != some rid)).map
        (fun x => x.id)).Nodup := by
      refine hnd.sublist ?_
      exact List.Sublist.map _ (List.filter_sublist _)
    have hnd2 : ((modifyComment (db.comments.filter (fun x => x.parentComment != some rid)) cid
        (fun parent => { parent with replies := parent.replies.filter (fun x => x != rid) })).map
        (fun x => x.id)).Nodup := by
      rw [map_id_modifyComment]
      · exact hnd1
      · exact fun c hcc => hcc
    have hnd3 : (((modifyComment (db.comments.filter (fun x => x.parentComment != some rid)) cid
        (fun parent => { parent with
            replies := parent.replies.filter (fun x => x != rid) })).filter
        (fun x => x.id != rid)).map (fun x => x.id)).Nodup := by
      refine hnd2.sublist ?_
      exact List.Sublist.map _ (List.filter_sublist _)
    have hCg1 : C ∈ db.comments.filter (fun x => x.parentComment != some rid) :=
      List.mem_filter.mpr ⟨hCmem, by simp [htop]⟩
    have hmem3 : ({ C with replies := C.replies.filter (fun x => x != rid) } : Comment)
        ∈ modifyComment (db.comments.filter (fun x => x.parentComment != some rid)) cid
            (fun parent => { parent with
                replies := parent.replies.filter (fun x => x != rid) }) :=
      (mem_modifyComment _ _ _ _).mpr ⟨C, hCg1, by simp [hcid]⟩
    have hmem4 : ({ C with replies := C.replies.filter (fun x => x != rid) } : Comment)
        ∈ (modifyComment (db.comments.filter (fun x => x.parentComment != some rid)) cid
            (fun parent => { parent with
                replies := parent.replies.filter (fun x => x != rid) })).filter
            (fun x => x.id != rid) :=
      List.mem_filter.mpr ⟨hmem3, by simp [hcid]; exact hne⟩
    constructor
    · show (deleteComment db R.author rid).2.comments.find? (fun x => x.id == cid)
          = some { C with replies := C.replies.filter (fun x => x != rid) }
      rw [h2]
      exact find_key_unique Comment.id _ cid _ hnd3 hmem4 hcid
    · rw [replySetEq_iff]
      intro i
      rw [h2]
      constructor
      · intro hi
        have hi1 : i ∈ C.replies ∧ (i != rid) = true := List.mem_filter.mp hi
        have hine : i ≠ rid := bne_iff_ne.mp hi1.2
        rcases (hinv' i).mp hi1.1 with ⟨r, hr1, hr2, hr3⟩
        have hrne : r.id ≠ rid := by rw [hr3]; exact hine
        have hg1 : r ∈ db.comments.filter (fun x => x.parentComment != some rid) :=
          List.mem_filter.mpr ⟨hr1, by simp [hr2]; exact hne⟩
        refine ⟨(if r.id == cid then
            { r with replies := r.replies.filter (fun x => x != rid) } else r), ?_, ?_, ?_⟩
        · refine List.mem_filter.mpr ⟨(mem_modifyComment _ _ _ _).mpr ⟨r, hg1, rfl⟩, ?_⟩
          rw [show ((if r.id == cid then
              { r with replies := r.replies.filter (fun x => x != rid) } else r) :
              Comment).id = r.id from hgi2 r]
          exact bne_iff_ne.mpr hrne
        · rw [hgp2 r]; exact hr2
        · rw [hgi2 r]; exact hr3
      · rintro ⟨x, hx, hxp, hxi⟩
        have hx1 := List.mem_filter.mp hx
        rcases (mem_modifyComment _ _ _ _).mp hx1.1 with ⟨r, hr1, rfl⟩
        have hr2 := List.mem_filter.mp hr1
        have hrp : r.parentComment = some cid := by rw [← hgp2 r]; exact hxp
        have hri : r.id = i := by rw [← hgi2 r]; exact hxi
        have hine : (i != rid) = true := by
          have h5 := hx1.2
          rw [hgi2 r, hri] at h5
          exact h5
        exact List.mem_filter.mpr ⟨(hinv' i).mpr ⟨r, hr2.1, hrp, hri⟩, hine⟩

/-- Witness for C4: in dbJ, comment 1 holds reply list [2]; creating reply 3
appends it, and deleting reply 2 (by its author, user 6) removes it, the
invariant holding in both resulting states. -/
theorem replyset_maintained_witness :
    (findComment (createComment dbJ 7 "hi" 90 (some 1) 3).2 1
        = some { cJ1 with replies := cJ1.replies ++ [3] } ∧
      replySetEq (createComment dbJ 7 "hi" 90 (some 1) 3).2.comments 1
        (cJ1.replies ++ [3])) ∧
    (findComment (deleteComment dbJ cJ2.author 2).2 1
        = some { cJ1 with replies := cJ1.replies.filter (fun r => r != 2) } ∧
      replySetEq (deleteComment dbJ cJ2.author 2).2.comments 1
        (cJ1.replies.filter (fun r => r != 2))) :=
  ⟨(replyset_maintained dbJ 1 cJ1 rfl rfl (by decide)).1 7 "hi" 90 pJ 3 rfl,
   (replyset_maintained dbJ 1 cJ1 rfl rfl (by decide)).2 2 cJ2 rfl rfl (by decide)⟩

end Pacto
